import Mathlib

/-!
# Verification of the functions-relay request pipeline

A shallow embedding of src/index.ts: an authenticating reverse relay built
on the oak framework.  Header mappings are modelled as association lists of
name/value pairs, mirroring the view that the fetch Headers class presents
to iteration (names byte-lowercased, duplicates combined); URLs are records
of the WHATWG URL components the code touches; the middleware pipeline is a
function from an inbound request, the configuration and oracles for the
credential verifier and the origin fetch to a final response; the websocket
relay is a small event step machine over the handler installation order of
relayWebsocket.
-/

namespace Relay

/-! ## Header mappings

A Headers object is viewed as a list of (name, value) pairs.  Real Headers
objects present iteration with names byte-lowercased and duplicate names
combined, so a well formed view has pairwise distinct, lowercase names; the
operations below are nevertheless defined on arbitrary lists, following the
fetch specification. -/

/-- A header mapping as iterated by Headers.forEach / Headers.entries. -/
abbrev HeaderList := List (String × String)

/-- ASCII lowercasing of one character, as applied by toLowerCase to the
ASCII range (header names are ASCII). -/
def lowerChar (c : Char) : Char :=
  if 65 ≤ c.toNat ∧ c.toNat ≤ 90 then Char.ofNat (c.toNat + 32) else c

/-- ASCII lowercasing of a string (JavaScript toLowerCase on ASCII input),
defined over the character list so that it reduces in the kernel. -/
def lowerStr (s : String) : String :=
  ⟨s.data.map lowerChar⟩

/-- A well formed Headers view: names pairwise distinct and already
byte-lowercased, as the fetch Headers class presents them. -/
def ValidHeaderView (hs : HeaderList) : Prop :=
  (hs.map Prod.fst).Nodup ∧ ∀ p ∈ hs, lowerStr p.1 = p.1

instance (hs : HeaderList) : Decidable (ValidHeaderView hs) := by
  unfold ValidHeaderView; infer_instance

/-- Headers.get: case-insensitive lookup of the first matching name. -/
def headersGet (hs : HeaderList) (k : String) : Option String :=
  (hs.find? (fun p => lowerStr p.1 == lowerStr k)).map Prod.snd

/-- The header-list set operation of the fetch specification with the name
already lowercased: replace the value of the first pair carrying the name
and drop the other pairs with that name, else append. -/
def hset : HeaderList → String → String → HeaderList
  | [], k, v => [(k, v)]
  | p :: t, k, v =>
    if p.1 = k then (k, v) :: t.filter (fun q => q.1 != k)
    else p :: hset t k v

/-- Headers.set: byte-lowercase the name, then run the header-list set. -/
def headersSet (hs : HeaderList) (k v : String) : HeaderList :=
  hset hs (lowerStr k) v

/-- The deny list of sanitizeHeaders in src/index.ts. -/
def headerDenyList : List String := ["set-cookie"]

/-- One iteration of the forEach loop body of sanitizeHeaders. -/
def sanitizeStep (acc : HeaderList) (p : String × String) : HeaderList :=
  if !(headerDenyList.contains (lowerStr p.1)) then headersSet acc p.1 p.2
  else acc

/-- sanitizeHeaders from src/index.ts: copy every header whose lowercased
name is not on the deny list into a fresh Headers object via set. -/
def sanitizeHeaders (headers : HeaderList) : HeaderList :=
  headers.foldl sanitizeStep []

example : sanitizeHeaders [("content-type", "a"), ("set-cookie", "sid=1"), ("x-a", "b")]
    = [("content-type", "a"), ("x-a", "b")] := by decide

example : sanitizeHeaders [("SET-Cookie", "sid=1")] = [] := by decide

/-! ## URLs and requests -/

/-- The WHATWG URL components the relay touches.  The port is a string, the
empty string standing for the null port. -/
structure Url where
  protocol : String
  hostname : String
  port : String
  pathname : String
  search : String
deriving DecidableEq

/-- The host component serialization: hostname, plus the port when one is
set. -/
def urlHost (u : Url) : String :=
  if u.port = "" then u.hostname else u.hostname ++ ":" ++ u.port

/-- The WHATWG host setter applied to the serialized host of another URL
(the assignment url.host = denoOrigin.host in patchedReq).  Parsing the
serialization of a host recovers its hostname and port; when the serialized
host carries no port, the port of the receiving URL is left unchanged. -/
def setHostFrom (u : Url) (o : Url) : Url :=
  if o.port = "" then { u with hostname := o.hostname }
  else { u with hostname := o.hostname, port := o.port }

/-- The three URL mutations of patchedReq: url.host = denoOrigin.host,
url.port = denoOrigin.port (assigning the empty string clears the port),
url.protocol = denoOrigin.protocol. -/
def patchedUrl (origin : Url) (u : Url) : Url :=
  let u1 := setHostFrom u origin
  let u2 := { u1 with port := origin.port }
  { u2 with protocol := origin.protocol }

/-- An inbound request as the middleware sees it: method, URL, the Headers
view, and whether a body is present (oak hasBody). -/
structure InboundRequest where
  method : String
  url : Url
  headers : HeaderList
  hasBody : Bool

/-- The RequestInit record built by patchedReq for the outbound fetch. -/
structure RequestInit where
  headers : HeaderList
  hasBody : Bool
  method : String
deriving DecidableEq

/-- The constant X_FORWARDED_HOST of src/index.ts. -/
def X_FORWARDED_HOST : String := "x-forwarded-host"

/-- Updating one key of a JavaScript object held as an ordered association
list: an existing key keeps its position and receives the new value, a new
key is appended.  JavaScript object keys are case sensitive. -/
def recordSet (m : HeaderList) (k v : String) : HeaderList :=
  if m.any (fun p => p.1 == k) then m.map (fun p => if p.1 = k then (k, v) else p)
  else m ++ [(k, v)]

/-- Object.fromEntries over an entries list: later pairs overwrite earlier
pairs with the same key, first occurrence keeps its position. -/
def objFromEntries (l : HeaderList) : HeaderList :=
  l.foldl (fun acc p => recordSet acc p.1 p.2) []

/-- patchedReq from src/index.ts: rewrite the URL onto the configured
origin, then build the RequestInit whose headers are the inbound entries
spread into an object literal with the forwarded-host key set to the
hostname of the rewritten URL. -/
def patchedReq (origin : Url) (req : InboundRequest) : Url × RequestInit :=
  let url := patchedUrl origin req.url
  let xHost := url.hostname
  (url,
   { headers := recordSet (objFromEntries req.headers) X_FORWARDED_HOST xHost,
     hasBody := req.hasBody,
     method := req.method })

/-- The websocket URL of relayWebsocket: the protocol with its first
occurrence of http replaced by ws (http: becomes ws:, https: becomes
wss:). -/
def wsUrl (u : Url) : Url :=
  { u with protocol := u.protocol.replace "http" "ws" }

/-! ## The middleware pipeline -/

/-- The configuration the pipeline reads: the VERIFY_JWT flag and the
parsed DENO_ORIGIN URL.  The JWT secret is absorbed into the verifier
oracle. -/
structure Config where
  verifyJwt : Bool
  origin : Url

/-- isWebsocketUpgrade from src/index.ts. -/
def isWebsocketUpgrade (req : InboundRequest) : Bool :=
  req.method == "GET" &&
    ((headersGet req.headers "upgrade").map lowerStr == some "websocket")

/-- JavaScript split on a single space character, over the character
list (a string with no separator yields a one element list). -/
def jsSplitSpace (s : String) : List String :=
  (s.data.splitOn ' ').map List.asString

/-- The outcome of getAuthToken: a 401 failure, or the destructured token,
which is absent when the header has no second space-separated field. -/
inductive AuthResult
  | fail (msg : String)
  | token (t : Option String)
deriving DecidableEq

/-- getAuthToken from src/index.ts: read the authorization header (an
absent or empty header is falsy), split on spaces, require the first field
to be Bearer, and return the second field. -/
def getAuthToken (headers : HeaderList) : AuthResult :=
  match headersGet headers "authorization" with
  | none => .fail "Missing authorization header"
  | some authHeader =>
    if authHeader = "" then .fail "Missing authorization header"
    else
      let parts := jsSplitSpace authHeader
      if parts.headD "" != "Bearer" then .fail "Auth header is not Bearer \x7btoken\x7d"
      else .token parts[1]?

/-- One call of verifyJWT: jose.jwtVerify throws on a missing token and on
any invalid token, and the catch block turns every throw into false. -/
def verifyCall (verify : String → Bool) : Option String → Bool
  | none => false
  | some tok => verify tok

/-- A failure thrown inside the inner middleware: ctx.throw carries a
status, other rejections carry none. -/
structure Failure where
  status : Option Nat
  msg : String
deriving DecidableEq

/-- An origin response as fetch resolves it. -/
structure OrigResponse where
  status : Nat
  headers : HeaderList
  bodyTag : Nat
  type : String
deriving DecidableEq

deriving instance DecidableEq for Except

/-- What the inner middleware produced: the result (an origin response
relayed, none for the websocket handoff, or a thrown failure), the fetch
calls issued to the origin, and the tokens passed to verifyJWT. -/
structure InnerOut where
  result : Except Failure (Option OrigResponse)
  fetched : List (Url × RequestInit)
  verified : List (Option String)
deriving DecidableEq

/-- The method gate condition of the inner middleware. -/
def gateB (req : InboundRequest) : Bool :=
  req.method == "POST" || req.method == "OPTIONS" || isWebsocketUpgrade req

/-- The tail of the inner middleware after the gates: hand off websocket
upgrades to relayWebsocket, otherwise fetch the patched request from the
origin; a fetch rejection carries no status. -/
def relayPhase (cfg : Config) (fetchOutcome : Url × RequestInit → Except String OrigResponse)
    (req : InboundRequest) (verified : List (Option String)) : InnerOut :=
  if isWebsocketUpgrade req then
    { result := .ok none, fetched := [], verified := verified }
  else
    let pr := patchedReq cfg.origin req
    match fetchOutcome pr with
    | .error msg => { result := .error { status := none, msg := msg }, fetched := [pr], verified := verified }
    | .ok resp => { result := .ok (some resp), fetched := [pr], verified := verified }

/-- The inner middleware of src/index.ts: the method gate, then the JWT
gate for non-OPTIONS methods when VERIFY_JWT is set, then the relay. -/
def innerStage (cfg : Config) (verify : String → Bool)
    (fetchOutcome : Url × RequestInit → Except String OrigResponse)
    (req : InboundRequest) : InnerOut :=
  if !(gateB req) then
    { result := .error { status := some 405, msg := "Only POST and OPTIONS requests are supported" },
      fetched := [], verified := [] }
  else if req.method != "OPTIONS" && cfg.verifyJwt then
    match getAuthToken req.headers with
    | .fail msg => { result := .error { status := some 401, msg := msg }, fetched := [], verified := [] }
    | .token t =>
      if !(verifyCall verify t) then
        { result := .error { status := some 401, msg := "Invalid JWT" }, fetched := [], verified := [t] }
      else relayPhase cfg fetchOutcome req [t]
  else relayPhase cfg fetchOutcome req []

/-- The body of the final response: the relayed origin body, or the message
text written by the error boundary. -/
inductive RespBody
  | empty
  | origin (tag : Nat)
  | errText (msg : String)
deriving DecidableEq

/-- The caller visible response. -/
structure FinalResponse where
  status : Nat
  body : RespBody
  headers : HeaderList
  type : Option String
deriving DecidableEq

/-- A handled connection ends in a response, or in a websocket upgrade that
takes the connection over. -/
inductive PipelineResult
  | response (r : FinalResponse)
  | upgraded
deriving DecidableEq

/-- The status written by the error boundary: err.status with 500 for a
missing or zero (falsy) status. -/
def boundaryStatus (f : Failure) : Nat :=
  match f.status with
  | some s => if s = 0 then 500 else s
  | none => 500

/-- The two middleware layers composed: the outer error boundary catches a
failure of the inner stage and writes its status, its message as the body
and the x-relay-error marker header; a relayed origin response is copied
with sanitized headers. -/
def pipeline (cfg : Config) (verify : String → Bool)
    (fetchOutcome : Url × RequestInit → Except String OrigResponse)
    (req : InboundRequest) : PipelineResult :=
  match (innerStage cfg verify fetchOutcome req).result with
  | .error f =>
    .response { status := boundaryStatus f, body := .errText f.msg,
                headers := [("x-relay-error", "true")], type := none }
  | .ok none => .upgraded
  | .ok (some resp) =>
    .response { status := resp.status, body := .origin resp.bodyTag,
                headers := sanitizeHeaders resp.headers, type := some resp.type }

/-- The status of the caller visible response, when there is one. -/
def responseStatus : PipelineResult → Option Nat
  | .response r => some r.status
  | .upgraded => none

/-- The inner stage failed with Unauthorized: its result is a thrown
failure carrying status 401. -/
def innerFails401 (out : InnerOut) : Bool :=
  match out.result with
  | .error f => f.status == some 401
  | .ok _ => false

/-! ## The websocket relay

relayWebsocket wraps the socket pair in a promise whose executor receives
only a resolve callback; there is no rejection path.  The handlers are
installed in this order: onopen on the upstream socket installs the two
onmessage forwarders and resolves the promise; onclose on either socket
closes the other socket.  Before the open event neither socket has an
onmessage handler, so a received message is dropped.  The model replays a
sequence of socket events against this handler wiring. -/

/-- The socket events relayWebsocket reacts to.  A refused origin
connection surfaces as an upstream close event without a prior open. -/
inductive WSEvent
  | upstreamOpen
  | upstreamMessage (data : String)
  | downstreamMessage (data : String)
  | upstreamClose
  | downstreamClose
deriving DecidableEq

/-- The observable state of one websocket session: whether the upstream
open handler ran (installing the forwarders), whether the promise was
settled by resolve or by reject, the frames sent onward in each direction,
and the close calls issued. -/
structure WSState where
  opened : Bool
  resolved : Bool
  rejected : Bool
  upstreamSent : List String
  downstreamSent : List String
  upstreamClosed : Bool
  downstreamClosed : Bool
deriving DecidableEq

/-- The session state before any event. -/
def wsInit : WSState :=
  { opened := false, resolved := false, rejected := false,
    upstreamSent := [], downstreamSent := [], upstreamClosed := false, downstreamClosed := false }

/-- One socket event against the handlers of relayWebsocket.  The promise
executor passes only resolve, so no event can set rejected.  A message
arriving before the open event finds no onmessage handler and is dropped.
A close event on either socket runs the close handler, which closes the
paired socket. -/
def wsStep (s : WSState) : WSEvent → WSState
  | .upstreamOpen => { s with opened := true, resolved := true }
  | .upstreamMessage d => if s.opened then { s with downstreamSent := s.downstreamSent ++ [d] } else s
  | .downstreamMessage d => if s.opened then { s with upstreamSent := s.upstreamSent ++ [d] } else s
  | .upstreamClose => { s with upstreamClosed := true, downstreamClosed := true }
  | .downstreamClose => { s with downstreamClosed := true, upstreamClosed := true }

/-- Replay a whole sequence of socket events. -/
def wsRun (events : List WSEvent) : WSState :=
  events.foldl wsStep wsInit

/-- The caller-side frame payloads of an event sequence, in order. -/
def downstreamDatas : List WSEvent → List String
  | [] => []
  | .downstreamMessage d :: t => d :: downstreamDatas t
  | _ :: t => downstreamDatas t

/-! ## Spec-side conditions (written from the wording of the claims) -/

/-- Written from the claim wording: the authorization header is exactly
Bearer, a space, and a token, a token being a string without spaces. -/
def specWellFormedBearer (h : String) : Bool :=
  (h.data.take 7).asString == "Bearer " && !((h.data.drop 7).contains ' ')

/-- Written from the claim wording of C1: the header is missing, or it is
not exactly Bearer followed by one token, or the token fails
verification. -/
def specAuthBad (req : InboundRequest) (verify : String → Bool) : Bool :=
  match headersGet req.headers "authorization" with
  | none => true
  | some h => !(specWellFormedBearer h) || !(verify (h.data.drop 7).asString)

/-- The amended auth condition, mirroring the destructuring the code
actually performs: the header is missing or empty, or its first
space-separated field is not Bearer, or the second space-separated field is
absent or fails verification (later fields are ignored). -/
def amendedAuthBad (req : InboundRequest) (verify : String → Bool) : Bool :=
  match headersGet req.headers "authorization" with
  | none => true
  | some h =>
    if h = "" then true
    else
      let parts := jsSplitSpace h
      parts.headD "" != "Bearer" ||
        (match parts[1]? with
         | none => true
         | some tok => !(verify tok))


/-! ## Concrete instances shared by witnesses and counterexamples -/

/-- A configured origin, http://origin:9000. -/
def wOrigin : Url :=
  { protocol := "http:", hostname := "origin", port := "9000", pathname := "/", search := "" }

/-- A caller facing inbound URL, https://pub/items?x=1. -/
def wPubUrl : Url :=
  { protocol := "https:", hostname := "pub", port := "", pathname := "/items", search := "?x=1" }

/-- A configuration with JWT enforcement enabled. -/
def wCfg : Config := { verifyJwt := true, origin := wOrigin }

/-- An origin response carrying a cookie. -/
def wResp : OrigResponse :=
  { status := 200, headers := [("set-cookie", "sid=1"), ("content-type", "a")],
    bodyTag := 7, type := "basic" }

/-- A fetch oracle that always resolves with wResp. -/
def wFetch : Url × RequestInit → Except String OrigResponse := fun _ => .ok wResp

/-- A verifier accepting exactly the token tok. -/
def wVerify : String → Bool := fun t => t == "tok"

/-- A request with an unsupported method. -/
def wReqPut : InboundRequest := { method := "PUT", url := wPubUrl, headers := [], hasBody := false }

/-- An OPTIONS request carrying a nonsense authorization header. -/
def wReqOptions : InboundRequest :=
  { method := "OPTIONS", url := wPubUrl, headers := [("authorization", "garbage")], hasBody := false }

/-- A POST whose authorization header carries a valid token plus an extra
space-separated segment. -/
def wReqPostExtra : InboundRequest :=
  { method := "POST", url := wPubUrl, headers := [("authorization", "Bearer tok extra")], hasBody := true }

/-- A POST whose token fails verification. -/
def wReqPostBad : InboundRequest :=
  { method := "POST", url := wPubUrl, headers := [("authorization", "Bearer nope")], hasBody := true }

/-- A POST that already carries a forwarded-host header. -/
def wReqFwdHost : InboundRequest :=
  { method := "POST", url := wPubUrl,
    headers := [("x-forwarded-host", "pub"), ("authorization", "Bearer tok")], hasBody := true }

/-! ## Lemmas about the header sanitizer -/

lemma hset_append_of_not_mem (l : HeaderList) (k v : String) (h : k ∉ l.map Prod.fst) :
    hset l k v = l ++ [(k, v)] := by
  induction l with
  | nil => rfl
  | cons p t ih =>
    have hk : p.1 ≠ k := by
      intro he; exact h (by simp [he])
    simp only [hset, if_neg hk, List.cons_append, List.cons.injEq, true_and]
    exact ih (fun hm => h (List.mem_cons_of_mem _ hm))

lemma sanitize_foldl_valid (hs : HeaderList) : ∀ acc : HeaderList,
    (∀ p ∈ acc, lowerStr p.1 = p.1) →
    (∀ p ∈ hs, lowerStr p.1 = p.1) →
    ((acc ++ hs).map Prod.fst).Nodup →
    List.foldl sanitizeStep acc hs = acc ++ hs.filter (fun p => p.1 != "set-cookie") := by
  induction hs with
  | nil => intro acc _ _ _; simp
  | cons p t ih =>
    intro acc hacc hlc hnd
    have hplc : lowerStr p.1 = p.1 := hlc p (List.mem_cons_self _ _)
    have htlc : ∀ q ∈ t, lowerStr q.1 = q.1 := fun q hq => hlc q (List.mem_cons_of_mem _ hq)
    rw [List.foldl_cons]
    by_cases hcook : p.1 = "set-cookie"
    · have hstep : sanitizeStep acc p = acc := by
        unfold sanitizeStep
        rw [hplc, hcook]
        simp [headerDenyList]
      have hnd' : ((acc ++ t).map Prod.fst).Nodup := by
        refine List.Nodup.sublist (List.Sublist.map _ ?_) hnd
        exact List.Sublist.append_left (List.sublist_cons_self _ _) acc
      rw [hstep, ih acc hacc htlc hnd', List.filter_cons]
      simp [hcook]
    · have hnotmem : p.1 ∉ acc.map Prod.fst := by
        intro hm
        have : ((acc.map Prod.fst) ++ (p.1 :: t.map Prod.fst)).Nodup := by
          simpa using hnd
        exact (List.disjoint_of_nodup_append this) hm (List.mem_cons_self _ _)
      have hstep : sanitizeStep acc p = acc ++ [(p.1, p.2)] := by
        unfold sanitizeStep headersSet
        rw [hplc]
        rw [if_pos (by simp [headerDenyList, hcook])]
        exact hset_append_of_not_mem acc p.1 p.2 hnotmem
      have hacc' : ∀ q ∈ acc ++ [(p.1, p.2)], lowerStr q.1 = q.1 := by
        intro q hq
        rcases List.mem_append.mp hq with hq | hq
        · exact hacc q hq
        · simp at hq; subst hq; exact hplc
      have hnd' : (((acc ++ [(p.1, p.2)]) ++ t).map Prod.fst).Nodup := by
        have he : (acc ++ [(p.1, p.2)]) ++ t = acc ++ p :: t := by
          simp
        rw [he]; exact hnd
      rw [hstep, ih (acc ++ [(p.1, p.2)]) hacc' htlc hnd', List.filter_cons]
      simp [hcook]

lemma sanitize_of_valid (hs : HeaderList) (hv : ValidHeaderView hs) :
    sanitizeHeaders hs = hs.filter (fun p => p.1 != "set-cookie") := by
  have := sanitize_foldl_valid hs [] (by simp) hv.2 (by simpa using hv.1)
  simpa [sanitizeHeaders] using this

lemma validHeaderView_filter (hs : HeaderList) (q : String × String → Bool)
    (hv : ValidHeaderView hs) : ValidHeaderView (hs.filter q) := by
  constructor
  · exact List.Nodup.sublist (List.Sublist.map _ (List.filter_sublist hs)) hv.1
  · intro p hp
    exact hv.2 p (List.mem_of_mem_filter hp)

/-! ## Lemmas about the request rewriter -/

lemma patchedUrl_components (origin : Url) (u : Url) :
    (patchedUrl origin u).protocol = origin.protocol ∧
    (patchedUrl origin u).hostname = origin.hostname ∧
    (patchedUrl origin u).port = origin.port ∧
    (patchedUrl origin u).pathname = u.pathname ∧
    (patchedUrl origin u).search = u.search := by
  unfold patchedUrl setHostFrom
  by_cases h : origin.port = "" <;> simp [h]

lemma recordSet_mem (m : HeaderList) (k v : String) : (k, v) ∈ recordSet m k v := by
  unfold recordSet
  split
  · next h =>
    rw [List.any_eq_true] at h
    obtain ⟨p, hp, hk⟩ := h
    refine List.mem_map.mpr ⟨p, hp, ?_⟩
    simp [beq_iff_eq.mp hk]
  · simp

lemma recordSet_value (m : HeaderList) (k v : String) :
    ∀ q ∈ recordSet m k v, q.1 = k → q.2 = v := by
  unfold recordSet
  split
  · intro q hq hqk
    obtain ⟨p, _, rfl⟩ := List.mem_map.mp hq
    by_cases hp : p.1 = k <;> simp_all
  · next h =>
    intro q hq hqk
    rcases List.mem_append.mp hq with hq | hq
    · exact absurd (List.any_eq_true.mpr ⟨q, hq, by simp [hqk]⟩) h
    · simp_all

lemma recordSet_keys (m : HeaderList) (k v : String) :
    ∀ q ∈ recordSet m k v, q.1 = k ∨ q ∈ m := by
  unfold recordSet
  split
  · intro q hq
    obtain ⟨p, hp, rfl⟩ := List.mem_map.mp hq
    by_cases hpk : p.1 = k
    · left; simp [hpk]
    · right; simpa [hpk] using hp
  · intro q hq
    rcases List.mem_append.mp hq with hq | hq
    · right; exact hq
    · left; simp_all

lemma objFromEntries_keys (l : HeaderList) :
    ∀ q ∈ objFromEntries l, ∃ p ∈ l, q.1 = p.1 := by
  suffices h : ∀ acc : HeaderList, ∀ q ∈ l.foldl (fun acc p => recordSet acc p.1 p.2) acc,
      q ∈ acc ∨ ∃ p ∈ l, q.1 = p.1 by
    intro q hq
    rcases h [] q hq with hq | hq
    · simp at hq
    · exact hq
  induction l with
  | nil => intro acc q hq; exact Or.inl hq
  | cons p t ih =>
    intro acc q hq
    rw [List.foldl_cons] at hq
    rcases ih (recordSet acc p.1 p.2) q hq with hq | ⟨r, hr, hqr⟩
    · rcases recordSet_keys acc p.1 p.2 q hq with hk | hk
      · exact Or.inr ⟨p, List.mem_cons_self _ _, hk⟩
      · exact Or.inl hk
    · exact Or.inr ⟨r, List.mem_cons_of_mem _ hr, hqr⟩

/-! ## Lemmas about the websocket event machine -/

lemma wsFoldl_no_open (t : List WSEvent) : ∀ s : WSState, WSEvent.upstreamOpen ∉ t →
    s.opened = false →
    (List.foldl wsStep s t).opened = false ∧
    (List.foldl wsStep s t).upstreamSent = s.upstreamSent ∧
    (List.foldl wsStep s t).downstreamSent = s.downstreamSent := by
  induction t with
  | nil => intro s _ ho; exact ⟨ho, rfl, rfl⟩
  | cons e t ih =>
    intro s h ho
    have he : e ≠ WSEvent.upstreamOpen := fun hh => h (hh ▸ List.mem_cons_self _ _)
    have ht : WSEvent.upstreamOpen ∉ t := fun hm => h (List.mem_cons_of_mem _ hm)
    rw [List.foldl_cons]
    have hs : (wsStep s e).opened = false ∧ (wsStep s e).upstreamSent = s.upstreamSent ∧
        (wsStep s e).downstreamSent = s.downstreamSent := by
      cases e with
      | upstreamOpen => exact absurd rfl he
      | upstreamMessage d => simp [wsStep, ho]
      | downstreamMessage d => simp [wsStep, ho]
      | upstreamClose => simp [wsStep, ho]
      | downstreamClose => simp [wsStep, ho]
    obtain ⟨g1, g2, g3⟩ := ih (wsStep s e) ht hs.1
    exact ⟨g1, by rw [g2, hs.2.1], by rw [g3, hs.2.2]⟩

lemma wsFoldl_after_open (t : List WSEvent) : ∀ s : WSState, s.opened = true →
    (List.foldl wsStep s t).upstreamSent = s.upstreamSent ++ downstreamDatas t := by
  induction t with
  | nil => intro s _; simp [downstreamDatas]
  | cons e t ih =>
    intro s ho
    rw [List.foldl_cons]
    cases e with
    | upstreamOpen =>
      rw [ih _ (by simp [wsStep])]
      simp [wsStep, downstreamDatas]
    | upstreamMessage d =>
      rw [ih _ (by simp [wsStep, ho])]
      simp [wsStep, ho, downstreamDatas]
    | downstreamMessage d =>
      rw [ih _ (by simp [wsStep, ho])]
      simp [wsStep, ho, downstreamDatas]
    | upstreamClose =>
      rw [ih _ (by simp [wsStep, ho])]
      simp [wsStep, downstreamDatas]
    | downstreamClose =>
      rw [ih _ (by simp [wsStep, ho])]
      simp [wsStep, downstreamDatas]

/-! ## Lemmas about the auth gate -/

lemma amendedAuthBad_eq (req : InboundRequest) (verify : String → Bool) :
    amendedAuthBad req verify =
      (match getAuthToken req.headers with
       | .fail _ => true
       | .token t => !(verifyCall verify t)) := by
  unfold amendedAuthBad getAuthToken
  cases h : headersGet req.headers "authorization" with
  | none => rfl
  | some a =>
    by_cases ha : a = ""
    · simp [ha]
    · by_cases hbeq : ((jsSplitSpace a).head?).getD "" = "Bearer"
      · cases hp : (jsSplitSpace a)[1]? with
        | none => simp [ha, hbeq, hp, verifyCall]
        | some tok => simp [ha, hbeq, hp, verifyCall]
      · simp [ha, hbeq]

/-! ## The claims -/

/-- C2: for every inbound request whose method is not POST, not OPTIONS,
and not a GET carrying a websocket upgrade header, the pipeline fails with
MethodNotAllowed and the caller visible response has status 405, regardless
of the configuration, the verifier and the origin. -/
theorem C2_method_gate (cfg : Config) (verify : String → Bool)
    (fetchOutcome : Url × RequestInit → Except String OrigResponse) (req : InboundRequest)
    (h1 : req.method ≠ "POST") (h2 : req.method ≠ "OPTIONS")
    (h3 : isWebsocketUpgrade req = false) :
    pipeline cfg verify fetchOutcome req =
      .response { status := 405, body := .errText "Only POST and OPTIONS requests are supported",
                  headers := [("x-relay-error", "true")], type := none } := by
  have hb1 : (req.method == "POST") = false := by simp [h1]
  have hb2 : (req.method == "OPTIONS") = false := by simp [h2]
  simp [pipeline, innerStage, gateB, hb1, hb2, h3, boundaryStatus]

/-- C2 witness: a PUT request receives the 405 response. -/
theorem C2_method_gate_witness :
    pipeline wCfg wVerify wFetch wReqPut =
      .response { status := 405, body := .errText "Only POST and OPTIONS requests are supported",
                  headers := [("x-relay-error", "true")], type := none } :=
  C2_method_gate wCfg wVerify wFetch wReqPut (by decide) (by decide) (by decide)

/-- C3: the outbound URL built by patchedReq carries the scheme, hostname
and port of the configured origin while its path and query are exactly the
inbound ones, and the outbound method equals the inbound method. -/
theorem C3_url_rewrite (origin : Url) (req : InboundRequest) :
    (patchedReq origin req).1.protocol = origin.protocol ∧
    (patchedReq origin req).1.hostname = origin.hostname ∧
    (patchedReq origin req).1.port = origin.port ∧
    (patchedReq origin req).1.pathname = req.url.pathname ∧
    (patchedReq origin req).1.search = req.url.search ∧
    (patchedReq origin req).2.method = req.method := by
  obtain ⟨h1, h2, h3, h4, h5⟩ := patchedUrl_components origin req.url
  exact ⟨h1, h2, h3, h4, h5, rfl⟩

/-- C4: on a well formed Headers view, sanitizeHeaders removes every
cookie setting header (any casing of set-cookie) and passes every other
header through unchanged, preserving multiplicity and case. -/
theorem C4_sanitize (hs : HeaderList) (hv : ValidHeaderView hs) :
    (∀ p ∈ sanitizeHeaders hs, lowerStr p.1 ≠ "set-cookie") ∧
    sanitizeHeaders hs = hs.filter (fun p => p.1 != "set-cookie") := by
  have he := sanitize_of_valid hs hv
  refine ⟨?_, he⟩
  intro p hp
  rw [he] at hp
  obtain ⟨hmem, hne⟩ := List.mem_filter.mp hp
  rw [hv.2 p hmem]
  simpa using hne

/-- C4 witness: a response carrying a set-cookie header loses exactly that
header. -/
theorem C4_sanitize_witness :
    sanitizeHeaders wResp.headers = wResp.headers.filter (fun p => p.1 != "set-cookie") :=
  (C4_sanitize wResp.headers (by decide)).2

/-- C5: whenever the inner stage throws a failure, the outer boundary
produces the response whose status is the status carried by the failure
(500 when it carries none or a falsy zero), whose body is the message text
of the failure, and whose headers carry the x-relay-error marker. -/
theorem C5_error_boundary (cfg : Config) (verify : String → Bool)
    (fetchOutcome : Url × RequestInit → Except String OrigResponse) (req : InboundRequest)
    (f : Failure) (h : (innerStage cfg verify fetchOutcome req).result = .error f) :
    pipeline cfg verify fetchOutcome req =
      .response { status := boundaryStatus f, body := .errText f.msg,
                  headers := [("x-relay-error", "true")], type := none } ∧
    (∀ s, f.status = some s → s ≠ 0 → boundaryStatus f = s) ∧
    (f.status = none → boundaryStatus f = 500) := by
  refine ⟨?_, ?_, ?_⟩
  · unfold pipeline
    rw [h]
  · intro s hs h0
    simp [boundaryStatus, hs, h0]
  · intro hs
    simp [boundaryStatus, hs]

/-- C5 witness: the 405 failure of an unsupported method is rendered by the
boundary with its status, its message as body and the marker header. -/
theorem C5_error_boundary_witness :
    pipeline wCfg wVerify wFetch wReqPut =
      .response { status := boundaryStatus { status := some 405, msg := "Only POST and OPTIONS requests are supported" },
                  body := .errText "Only POST and OPTIONS requests are supported",
                  headers := [("x-relay-error", "true")], type := none } :=
  (C5_error_boundary wCfg wVerify wFetch wReqPut
    { status := some 405, msg := "Only POST and OPTIONS requests are supported" } (by decide)).1

/-- C6: evidence for the websocket connection failure behavior.  When the
origin side socket closes without ever opening (a refused connection), the
promise of relayWebsocket is neither resolved nor rejected, so the handler
suspends forever and no failure reaches the error boundary; the close
handler does close the caller side socket. -/
theorem C6_ws_failure_no_reject :
    (wsRun [WSEvent.upstreamClose]).resolved = false ∧
    (wsRun [WSEvent.upstreamClose]).rejected = false ∧
    (wsRun [WSEvent.upstreamClose]).downstreamClosed = true := by decide

/-- C7: the outbound headers always contain the forwarded-host name bound
to the hostname of the rewritten URL, which is the origin hostname, and on
a well formed inbound Headers view every pair under that name carries that
value, overwriting any inbound forwarded-host header. -/
theorem C7_forwarded_host (origin : Url) (req : InboundRequest)
    (hlc : ∀ p ∈ req.headers, lowerStr p.1 = p.1) :
    (X_FORWARDED_HOST, origin.hostname) ∈ (patchedReq origin req).2.headers ∧
    ∀ p ∈ (patchedReq origin req).2.headers,
      lowerStr p.1 = X_FORWARDED_HOST → p.2 = origin.hostname := by
  have hh : (patchedUrl origin req.url).hostname = origin.hostname :=
    (patchedUrl_components origin req.url).2.1
  have hunfold : (patchedReq origin req).2.headers
      = recordSet (objFromEntries req.headers) X_FORWARDED_HOST origin.hostname := by
    simp [patchedReq, hh]
  rw [hunfold]
  constructor
  · exact recordSet_mem _ _ _
  · intro p hp hkey
    rcases recordSet_keys _ _ _ p hp with hk | hk
    · exact recordSet_value _ _ _ p hp hk
    · obtain ⟨r, hr, hqr⟩ := objFromEntries_keys _ p hk
      have hlp : lowerStr p.1 = p.1 := by rw [hqr]; exact hlc r hr
      exact recordSet_value _ _ _ p hp (hlp.symm.trans hkey)

/-- C7 witness: an inbound forwarded-host header naming the public host is
overwritten with the origin hostname. -/
theorem C7_forwarded_host_witness :
    (X_FORWARDED_HOST, wOrigin.hostname) ∈ (patchedReq wOrigin wReqFwdHost).2.headers :=
  (C7_forwarded_host wOrigin wReqFwdHost (by decide)).1

/-- C8: an OPTIONS request never reaches the credential verifier, whatever
the configuration and the authorization header, and is forwarded to the
origin as the patched request. -/
theorem C8_options_bypass (cfg : Config) (verify : String → Bool)
    (fetchOutcome : Url × RequestInit → Except String OrigResponse) (req : InboundRequest)
    (h : req.method = "OPTIONS") :
    (innerStage cfg verify fetchOutcome req).verified = [] ∧
    (innerStage cfg verify fetchOutcome req).fetched = [patchedReq cfg.origin req] := by
  have hg : gateB req = true := by simp [gateB, h]
  have hw : isWebsocketUpgrade req = false := by simp [isWebsocketUpgrade, h]
  have hbo : (req.method != "OPTIONS") = false := by simp [h]
  unfold innerStage relayPhase
  rw [hg, hbo]
  simp only [Bool.not_true, Bool.false_and, if_false, Bool.false_eq_true, hw]
  cases hf : fetchOutcome (patchedReq cfg.origin req) <;> simp

/-- C8 witness: an OPTIONS request with a nonsense authorization header is
forwarded without any verifier call. -/
theorem C8_options_bypass_witness :
    (innerStage wCfg wVerify wFetch wReqOptions).verified = [] ∧
    (innerStage wCfg wVerify wFetch wReqOptions).fetched = [patchedReq wCfg.origin wReqOptions] :=
  C8_options_bypass wCfg wVerify wFetch wReqOptions (by decide)

/-- C9: on a well formed Headers view, sanitizing an already sanitized
header mapping yields the same mapping. -/
theorem C9_sanitize_idempotent (hs : HeaderList) (hv : ValidHeaderView hs) :
    sanitizeHeaders (sanitizeHeaders hs) = sanitizeHeaders hs := by
  rw [sanitize_of_valid hs hv,
      sanitize_of_valid _ (validHeaderView_filter hs _ hv),
      List.filter_filter]
  simp

/-- C9 witness: idempotence on a concrete response header mapping. -/
theorem C9_sanitize_idempotent_witness :
    sanitizeHeaders (sanitizeHeaders wResp.headers) = sanitizeHeaders wResp.headers :=
  C9_sanitize_idempotent wResp.headers (by decide)

/-- C10: before the open event of the origin socket no forwarding binding
exists: an event sequence without an open forwards nothing in either
direction, and after an open exactly the caller side messages that arrive
from then on are forwarded to the origin, so earlier ones were dropped and
not queued. -/
theorem C10_no_early_forward (t tpost : List WSEvent) (h : WSEvent.upstreamOpen ∉ t) :
    (wsRun t).upstreamSent = [] ∧ (wsRun t).downstreamSent = [] ∧
    (wsRun (t ++ WSEvent.upstreamOpen :: tpost)).upstreamSent = downstreamDatas tpost := by
  obtain ⟨h1, h2, h3⟩ := wsFoldl_no_open t wsInit h rfl
  refine ⟨by simpa [wsRun] using h2, by simpa [wsRun] using h3, ?_⟩
  unfold wsRun
  rw [List.foldl_append, List.foldl_cons]
  rw [wsFoldl_after_open tpost _ (by simp [wsStep])]
  have h2x : (List.foldl wsStep wsInit t).upstreamSent = [] := by simpa [wsRun] using h2
  simp [wsStep, h2x]

/-- C10 witness: a caller message before the open event is dropped, one
after it is forwarded. -/
theorem C10_no_early_forward_witness :
    (wsRun [WSEvent.downstreamMessage "early", WSEvent.upstreamMessage "x"]).upstreamSent = [] ∧
    (wsRun [WSEvent.downstreamMessage "early", WSEvent.upstreamMessage "x"]).downstreamSent = [] ∧
    (wsRun ([WSEvent.downstreamMessage "early", WSEvent.upstreamMessage "x"] ++
        WSEvent.upstreamOpen :: [WSEvent.downstreamMessage "late"])).upstreamSent =
      downstreamDatas [WSEvent.downstreamMessage "late"] :=
  C10_no_early_forward [WSEvent.downstreamMessage "early", WSEvent.upstreamMessage "x"]
    [WSEvent.downstreamMessage "late"] (by decide)

/-- C1 counterexample: the claim, read with its own words (401 exactly when
the header is missing, or not exactly Bearer followed by one token, or the
token fails verification), is false on a POST whose authorization header is
Bearer tok extra under a verifier accepting tok: the header is not exactly
Bearer followed by one token, yet the code destructures the second field
tok, verifies it and forwards the request without a 401. -/
theorem C1_counterexample :
    ¬ ((innerFails401 (innerStage wCfg wVerify wFetch wReqPostExtra) = true ↔
          specAuthBad wReqPostExtra wVerify = true) ∧
       (innerFails401 (innerStage wCfg wVerify wFetch wReqPostExtra) = true →
          (innerStage wCfg wVerify wFetch wReqPostExtra).fetched = [])) := by decide

/-- C1 (amended): with enforcement enabled, for every non OPTIONS request
the inner stage fails with 401 exactly when the request passes the method
gate and the authorization header is missing or empty, or its first space
separated field is not Bearer, or its second space separated field is
absent or fails verification (later fields are ignored); and on a 401 no
request is ever forwarded to the origin. -/
theorem C1_amended_auth (cfg : Config) (verify : String → Bool)
    (fetchOutcome : Url × RequestInit → Except String OrigResponse) (req : InboundRequest)
    (hv : cfg.verifyJwt = true) (hm : req.method ≠ "OPTIONS") :
    (innerFails401 (innerStage cfg verify fetchOutcome req) = true ↔
      (gateB req && amendedAuthBad req verify) = true) ∧
    (innerFails401 (innerStage cfg verify fetchOutcome req) = true →
      (innerStage cfg verify fetchOutcome req).fetched = []) := by
  have hbm : (req.method != "OPTIONS") = true := by simp [hm]
  rw [amendedAuthBad_eq]
  cases hg : gateB req with
  | false => simp [innerStage, hg, innerFails401]
  | true =>
    unfold innerStage
    rw [hg, hbm, hv]
    simp only [Bool.not_true, Bool.true_and, if_false, if_true, Bool.true_eq_false]
    cases hat : getAuthToken req.headers with
    | fail msg => simp [innerFails401]
    | token t =>
      cases hvc : verifyCall verify t with
      | false => simp [innerFails401, hvc]
      | true =>
        unfold relayPhase
        cases hws : isWebsocketUpgrade req with
        | true => simp [innerFails401, hvc, hws]
        | false =>
          cases hf : fetchOutcome (patchedReq cfg.origin req) with
          | error msg => simp [innerFails401, hvc, hws, hf]
          | ok resp => simp [innerFails401, hvc, hws, hf]

/-- C1 witness: a POST with a failing token is refused with 401 and not
forwarded. -/
theorem C1_amended_auth_witness :
    (innerFails401 (innerStage wCfg wVerify wFetch wReqPostBad) = true ↔
      (gateB wReqPostBad && amendedAuthBad wReqPostBad wVerify) = true) ∧
    (innerFails401 (innerStage wCfg wVerify wFetch wReqPostBad) = true →
      (innerStage wCfg wVerify wFetch wReqPostBad).fetched = []) :=
  C1_amended_auth wCfg wVerify wFetch wReqPostBad rfl (by decide)

end Relay
